import Mathlib

/-!
# Verification of the netsert core (path addressing, assertion evaluation, runner)

This file gives a shallow embedding, over `List Char`, of the netsert
repository's core functions:

* `pkg/assertion/path.go` — `ExpandPath`, `CompactPath` (table-driven
  short-form ⇄ canonical-form path rewriting, with `strings.Replace`-based
  template substitution);
* `pkg/gnmiclient/client.go` — `splitPath`, `parsePathElem`, `parsePath`
  (bracket-aware tokenizer and segment parser);
* `pkg/assertion/types.go` — `Assertion.Validate` (predicate evaluation);
* `pkg/runner/runner.go` — `Runner.Run` / `runTarget` / `runAssertion`
  (error propagation and result aggregation).

Go strings are modelled as `List Char`; Go's `strings.Index`-based scanning
is modelled by `splitFirst`; `strings.Replace(s, old, new, 1)` by
`replaceFirst`; `strings.Contains` by `containsSub`.  Regular-expression
matching (used only by the `Matches` predicate, which no theorem exercises
on its match path) is abstracted as an explicit `RegexEngine` parameter.
`strconv.ParseFloat` is modelled by `goParseFloat`, which reproduces Go's
syntax acceptance (sign, inf/infinity/nan specials, decimal and hexadecimal
mantissas, exponents, underscore placement rules) with exact rational
values in place of IEEE doubles; no theorem depends on rounding.
-/

namespace Netsert

/-- The character list of a string literal (Go strings are byte/rune
sequences; we work with their rune lists). -/
def S (s : String) : List Char := s.data

/-- Left brace character (written via its code point). -/
def lbrace : Char := Char.ofNat 123

/-- Right brace character (written via its code point). -/
def rbrace : Char := Char.ofNat 125

/-- Split a list at the first occurrence of character `c`
(Go `strings.Index(s, c)` followed by slicing): returns the part strictly
before the first `c` and the part strictly after it, or `none` when `c`
does not occur. -/
def splitFirst (c : Char) : List Char → Option (List Char × List Char)
  | [] => none
  | d :: l =>
    if d = c then some ([], l)
    else
      match splitFirst c l with
      | none => none
      | some (a, b) => some (d :: a, b)

/-- Go `strings.Contains(l, pat)`. -/
def containsSub : List Char → List Char → Bool
  | [], pat => pat.isPrefixOf []
  | c :: t, pat => pat.isPrefixOf (c :: t) || containsSub t pat

/-- Go `strings.Replace(l, pat, rep, 1)`: replace the first (leftmost)
occurrence of `pat` in `l` by `rep`; `l` unchanged when `pat` does not
occur. -/
def replaceFirst : List Char → List Char → List Char → List Char
  | [], pat, rep => if pat.isPrefixOf ([] : List Char) then rep else []
  | c :: t, pat, rep =>
    if pat.isPrefixOf (c :: t) then rep ++ (c :: t).drop pat.length
    else c :: replaceFirst t pat rep

/-! ## Path expansion (`pkg/assertion/path.go`) -/

/-- The match performed by a keyed prefix-table entry of `ExpandPath`
(patterns `bgp[`, `ospf[`, `isis[`, `interface[`, `network-instance[`,
each with a regex of shape `^PFX\[([^\]]+)\]/(.*)$`): `pat` (the
`Pattern` field, `[` included) must be a prefix, then comes a nonempty run
of non-`]` characters (the instance capture, ended by the first `]`),
then `/`, then the rest.  `none` covers both a failed prefix test and a
failed regex match (the Go loop falls through to the next entry in either
case). -/
def keyedMatch (pat l : List Char) : Option (List Char × List Char) :=
  if pat.isPrefixOf l then
    match splitFirst ']' (l.drop pat.length) with
    | none => none
    | some (inst, after) =>
      match after with
      | '/' :: rest => if inst = [] then none else some (inst, rest)
      | _ => none
  else none

/-- The match performed by the `lldp/` and `system/` entries (regex
`^PFX/(.*)$`): when the prefix matches, the capture is everything after
it. -/
def plainMatch (pat l : List Char) : Option (List Char) :=
  if pat.isPrefixOf l then some (l.drop pat.length) else none

/-- Template instantiation as the expansion loop performs it for a
two-group entry: `strings.Replace(t, "{instance}", inst, 1)` followed by
`strings.Replace(·, "{rest}", rest, 1)`. -/
def instantiate2 (t inst rest : List Char) : List Char :=
  replaceFirst (replaceFirst t (S "\x7binstance\x7d") inst) (S "\x7brest\x7d") rest

/-- Template instantiation for a one-group entry (`lldp/`, `system/`):
`{instance}` is replaced by the capture and, since there is no second
group, the first occurrence of `{rest}` is replaced by the empty
string. -/
def instantiate1 (t inst : List Char) : List Char :=
  replaceFirst (replaceFirst t (S "\x7binstance\x7d") inst) (S "\x7brest\x7d") []

/-- Expansion template of the `bgp[` entry. -/
def bgpTemplate : List Char :=
  S "/network-instances/network-instance[name=\x7binstance\x7d]/protocols/protocol[identifier=BGP][name=BGP]/bgp/\x7brest\x7d"

/-- Expansion template of the `ospf[` entry. -/
def ospfTemplate : List Char :=
  S "/network-instances/network-instance[name=\x7binstance\x7d]/protocols/protocol[identifier=OSPF][name=OSPF]/ospf/\x7brest\x7d"

/-- Expansion template of the `isis[` entry. -/
def isisTemplate : List Char :=
  S "/network-instances/network-instance[name=\x7binstance\x7d]/protocols/protocol[identifier=ISIS][name=ISIS]/isis/\x7brest\x7d"

/-- Expansion template of the `interface[` entry. -/
def ifaceTemplate : List Char :=
  S "/interfaces/interface[name=\x7binstance\x7d]/\x7brest\x7d"

/-- Expansion template of the `lldp/` entry. -/
def lldpTemplate : List Char := S "/lldp/\x7binstance\x7d"

/-- Expansion template of the `system/` entry. -/
def systemTemplate : List Char := S "/system/\x7binstance\x7d"

/-- Expansion template of the `network-instance[` entry. -/
def niTemplate : List Char :=
  S "/network-instances/network-instance[name=\x7binstance\x7d]/\x7brest\x7d"

/-- The ordered walk over `pathPrefixes` inside `ExpandPath`: the first
entry whose pattern and regex both match wins; `none` when no entry
matches. -/
def expandMatch (l : List Char) : Option (List Char) :=
  match keyedMatch (S "bgp[") l with
  | some (inst, rest) => some (instantiate2 bgpTemplate inst rest)
  | none =>
  match keyedMatch (S "ospf[") l with
  | some (inst, rest) => some (instantiate2 ospfTemplate inst rest)
  | none =>
  match keyedMatch (S "isis[") l with
  | some (inst, rest) => some (instantiate2 isisTemplate inst rest)
  | none =>
  match keyedMatch (S "interface[") l with
  | some (inst, rest) => some (instantiate2 ifaceTemplate inst rest)
  | none =>
  match plainMatch (S "lldp/") l with
  | some cap => some (instantiate1 lldpTemplate cap)
  | none =>
  match plainMatch (S "system/") l with
  | some cap => some (instantiate1 systemTemplate cap)
  | none =>
  match keyedMatch (S "network-instance[") l with
  | some (inst, rest) => some (instantiate2 niTemplate inst rest)
  | none => none

/-- `ExpandPath`: absolute paths (leading `/`) pass through unchanged;
otherwise the first matching prefix-table entry is instantiated; when no
entry matches, a leading `/` is prepended. -/
def expandPath (l : List Char) : List Char :=
  if (S "/").isPrefixOf l then l
  else
    match expandMatch l with
    | some r => r
    | none => '/' :: l

/-- The match performed by a compaction regex of shape
`^CPRE([^\]]+)\]CTAIL(.*)$` (with `CPRE` ending in `[name=` and `CTAIL`
beginning with `/`): `cpre` must be a prefix, the capture runs to the
first `]` after it and must be nonempty, and `ctail` must follow that
`]`; the second capture is what remains after `ctail`. -/
def compactMatch (cpre ctail l : List Char) : Option (List Char × List Char) :=
  if cpre.isPrefixOf l then
    match splitFirst ']' (l.drop cpre.length) with
    | none => none
    | some (inst, after) =>
      if inst = [] then none
      else if ctail.isPrefixOf after then some (inst, after.drop ctail.length)
      else none
  else none

/-- `CompactPath`: the fixed, ordered sequence of compaction rules (BGP,
OSPF, ISIS, interface, LLDP, system, generic network-instance); a path
matching no rule is returned unchanged. -/
def compactPath (l : List Char) : List Char :=
  match compactMatch (S "/network-instances/network-instance[name=")
      (S "/protocols/protocol[identifier=BGP][name=BGP]/bgp/") l with
  | some (inst, rest) => S "bgp[" ++ inst ++ S "]/" ++ rest
  | none =>
  match compactMatch (S "/network-instances/network-instance[name=")
      (S "/protocols/protocol[identifier=OSPF][name=OSPF]/ospf/") l with
  | some (inst, rest) => S "ospf[" ++ inst ++ S "]/" ++ rest
  | none =>
  match compactMatch (S "/network-instances/network-instance[name=")
      (S "/protocols/protocol[identifier=ISIS][name=ISIS]/isis/") l with
  | some (inst, rest) => S "isis[" ++ inst ++ S "]/" ++ rest
  | none =>
  match compactMatch (S "/interfaces/interface[name=") (S "/") l with
  | some (inst, rest) => S "interface[" ++ inst ++ S "]/" ++ rest
  | none =>
  if (S "/lldp/").isPrefixOf l then S "lldp/" ++ l.drop 6
  else if (S "/system/").isPrefixOf l then S "system/" ++ l.drop 8
  else
  match compactMatch (S "/network-instances/network-instance[name=") (S "/") l with
  | some (inst, rest) => S "network-instance[" ++ inst ++ S "]/" ++ rest
  | none => l

/-- `IsShortPath`. -/
def isShortPath (l : List Char) : Bool := !(S "/").isPrefixOf l

/-! ## Path tokenizer and element parser (`pkg/gnmiclient/client.go`) -/

/-- The rune loop of `splitPath`: `depth` tracks bracket nesting (a Go
`int`, free to go negative), `current` accumulates the segment being
built; a `/` at depth zero flushes a nonempty `current`; the final
nonempty `current` is flushed at the end. -/
def splitPathAux : List Char → Int → List Char → List (List Char)
  | [], _, current => if current = [] then [] else [current]
  | c :: t, depth, current =>
    if c = '[' then splitPathAux t (depth + 1) (current ++ [c])
    else if c = ']' then splitPathAux t (depth - 1) (current ++ [c])
    else if c = '/' then
      if depth = 0 then
        if current = [] then splitPathAux t depth []
        else current :: splitPathAux t depth []
      else splitPathAux t depth (current ++ [c])
    else splitPathAux t depth (current ++ [c])

/-- `splitPath`: split a path into segments on `/`, except inside
brackets. -/
def splitPath (l : List Char) : List (List Char) := splitPathAux l 0 []

/-- The `MalformedPathError`s produced by `parsePathElem`
(`"unclosed bracket in path segment: %s"` and
`"invalid key-value pair: %s"`). -/
inductive PathErr where
  | unclosedBracket (segment : List Char)
  | invalidKV (kv : List Char)
deriving DecidableEq, Repr

/-- A `gnmi.PathElem`: segment name plus parsed keys.  The Go
`map[string]string` is modelled as an association list with
overwrite-on-duplicate insertion. -/
structure PathElem where
  Name : List Char
  Key : List (List Char × List Char)
deriving DecidableEq, Repr

/-- `elem.Key[key] = value` on the association-list model of a Go map. -/
def mapInsert (m : List (List Char × List Char)) (k v : List Char) :
    List (List Char × List Char) :=
  match m with
  | [] => [(k, v)]
  | (k0, v0) :: t => if k0 = k then (k, v) :: t else (k0, v0) :: mapInsert t k v

/-- The key-group loop of `parsePathElem`, scanned character by
character.  Outside a group (`buf = none`) a leading `[` opens a group and
any other character — or the end of input — ends the loop, silently
discarding whatever remains.  Inside a group (`buf = some kv`) characters
accumulate until the first `]` closes it (this realises Go's
`strings.Index(keysPart, "]")` scan); the enclosed text splits at its
first `=` into key and value (error `invalidKV` when there is no `=`) and
the pair is recorded; end of input with a group still open is the
`unclosedBracket` error. -/
def parseKeys (seg : List Char) :
    List Char → Option (List Char) → List (List Char × List Char) →
      Except PathErr (List (List Char × List Char))
  | [], none, acc => .ok acc
  | [], some _, _ => .error (.unclosedBracket seg)
  | c :: t, none, acc =>
    if c = '[' then parseKeys seg t (some []) acc else .ok acc
  | c :: t, some kv, acc =>
    if c = ']' then
      match splitFirst '=' kv with
      | none => .error (.invalidKV kv)
      | some (k, v) => parseKeys seg t none (mapInsert acc k v)
    else parseKeys seg t (some (kv ++ [c])) acc

/-- `parsePathElem`: a segment without `[` is a bare name; otherwise the
name is everything before the first `[` and the remainder (from that `[`
on, Go's `keysPart`) is fed to the key-group loop. -/
def parsePathElem (segment : List Char) : Except PathErr PathElem :=
  match splitFirst '[' segment with
  | none => .ok ⟨segment, []⟩
  | some (name, t) =>
    match parseKeys segment ('[' :: t) none [] with
    | .error e => .error e
    | .ok keys => .ok ⟨name, keys⟩

/-- `parsePath`: strip one leading `/` (Go `strings.TrimPrefix`),
tokenize, parse every segment; the first `MalformedPathError` aborts. -/
def parsePath (l : List Char) : Except PathErr (List PathElem) :=
  (splitPath (if (S "/").isPrefixOf l then l.drop 1 else l)).mapM parsePathElem

/-- The spec's bracket-imbalance condition (claim C2): the nesting depth
goes negative at some point, or is non-zero at the end of the string.
Written from the spec's words — it exists only to state that claim; the
tokenizer itself performs no such check. -/
def specUnbalancedAux : List Char → Int → Bool
  | [], depth => depth ≠ 0
  | c :: t, depth =>
    if c = '[' then specUnbalancedAux t (depth + 1)
    else if c = ']' then decide (depth - 1 < 0) || specUnbalancedAux t (depth - 1)
    else specUnbalancedAux t depth

/-- Bracket imbalance of a whole string, starting at depth zero. -/
def specUnbalanced (l : List Char) : Bool := specUnbalancedAux l 0

/-! ## `strconv.ParseFloat` model -/

/-- Go's `lower(c) = c | ('x' - 'X')` (set the 0x20 bit). -/
def lowerChar (c : Char) : Char := Char.ofNat ((c.toNat ||| 32) % 1114112)

/-- Hexadecimal digit test as Go performs it:
`'0' <= c && c <= '9' || 'a' <= lower(c) && lower(c) <= 'f'`. -/
def isHexDigit (c : Char) : Bool :=
  c.isDigit || ('a' ≤ lowerChar c && lowerChar c ≤ 'f')

/-- Numeric value of a (hex) digit. -/
def digitVal (c : Char) : Nat :=
  if c.isDigit then c.toNat - 48 else (lowerChar c).toNat - 97 + 10

/-- The result of Go's `strconv.ParseFloat`.  Finite values are kept as
exact rationals (Go rounds to an IEEE double; no theorem in this file
depends on that rounding). -/
inductive GoFloat where
  | finite (q : ℚ)
  | inf (neg : Bool)
  | nan
deriving DecidableEq, Repr

/-- Result of the mantissa scan of Go's `readFloat`: accumulated digit
value, number of digits seen after the decimal point, whether any digit
was seen, whether any underscore was consumed, and the unconsumed
remainder (scanning stops at the first character that is not a digit, an
underscore, or a first `.`). -/
structure MantOut where
  mant : Nat
  frac : Nat
  sawDigits : Bool
  underscores : Bool
  rest : List Char

/-- The mantissa loop of `readFloat` (`hex` selects the digit alphabet and
base).  A second `.` ends the scan. -/
def scanMant (hex : Bool) : List Char → Bool → Nat → Nat → Bool → Bool → MantOut
  | [], _, mant, frac, sawdig, und => ⟨mant, frac, sawdig, und, []⟩
  | c :: t, sawdot, mant, frac, sawdig, und =>
    if c = '_' then scanMant hex t sawdot mant frac sawdig true
    else if c = '.' then
      if sawdot then ⟨mant, frac, sawdig, und, c :: t⟩
      else scanMant hex t true mant frac sawdig und
    else if (if hex then isHexDigit c else c.isDigit) then
      scanMant hex t sawdot (mant * (if hex then 16 else 10) + digitVal c)
        (if sawdot then frac + 1 else frac) true und
    else ⟨mant, frac, sawdig, und, c :: t⟩

/-- Result of the exponent scan: accumulated exponent (signed), whether
the scan succeeded, whether an underscore was consumed, remainder. -/
structure ExpOut where
  exp : Int
  ok : Bool
  underscores : Bool
  rest : List Char

/-- Digits-and-underscores loop of the exponent part. -/
def scanExpDigits : List Char → Nat → Bool → (Nat × Bool × List Char)
  | [], e, und => (e, und, [])
  | c :: t, e, und =>
    if c = '_' then scanExpDigits t e true
    else if c.isDigit then scanExpDigits t (e * 10 + digitVal c) und
    else (e, und, c :: t)

/-- The exponent part of `readFloat`, after the `e`/`p` character has been
consumed: an optional sign, then at least one decimal digit, then digits
and underscores. -/
def scanExp (l : List Char) : ExpOut :=
  let (neg, r) :=
    match l with
    | '+' :: t => (false, t)
    | '-' :: t => (true, t)
    | _ => (false, l)
  match r with
  | [] => ⟨0, false, false, r⟩
  | c :: _ =>
    if c.isDigit then
      let (e, und, rest) := scanExpDigits r 0 false
      ⟨if neg then -(e : Int) else (e : Int), true, und, rest⟩
    else ⟨0, false, false, r⟩

/-- Go's `underscoreOK`: underscores may only separate digits (the base
prefix counting as a digit). -/
def underscoreOKLoop (hex : Bool) : List Char → Char → Bool
  | [], saw => saw ≠ '_'
  | c :: t, saw =>
    if c.isDigit || (hex && 'a' ≤ lowerChar c && lowerChar c ≤ 'f') then
      underscoreOKLoop hex t '0'
    else if c = '_' then
      if saw ≠ '0' then false else underscoreOKLoop hex t '_'
    else if saw = '_' then false
    else underscoreOKLoop hex t '!'

/-- Go's `underscoreOK` on a whole string: strip an optional sign, note an
optional base prefix, then run the loop. -/
def underscoreOK (l : List Char) : Bool :=
  let r :=
    match l with
    | '+' :: t => t
    | '-' :: t => t
    | _ => l
  match r with
  | '0' :: c :: t =>
    if lowerChar c = 'b' || lowerChar c = 'o' || lowerChar c = 'x' then
      underscoreOKLoop (lowerChar c = 'x') t '0'
    else underscoreOKLoop false r '^'
  | _ => underscoreOKLoop false r '^'

/-- The number path of `ParseFloat` (Go `readFloat`, full-string): sign,
optional `0x` prefix, mantissa, exponent (`e`, optional, for decimal;
`p`, mandatory, for hex), no trailing characters, and the underscore
placement check when any underscore was consumed. -/
def readFloatFull (l : List Char) : Option ℚ :=
  let (neg, r0) :=
    match l with
    | '+' :: t => (false, t)
    | '-' :: t => (true, t)
    | _ => (false, l)
  let (hex, r1) :=
    match r0 with
    | '0' :: c :: t => if lowerChar c = 'x' then (true, t) else (false, r0)
    | _ => (false, r0)
  let m := scanMant hex r1 false 0 0 false false
  if !m.sawDigits then none
  else
    let base : ℚ := if hex then 16 else 10
    let expChar : Char := if hex then 'p' else 'e'
    let withExp : Option (Int × Bool) :=
      match m.rest with
      | c :: t =>
        if lowerChar c = expChar then
          let e := scanExp t
          if e.ok && e.rest = [] then some (e.exp, e.underscores) else none
        else none
      | [] => if hex then none else some (0, false)
    match withExp with
    | none =>
      if hex then none
      else if m.rest = [] then
        if m.underscores && !underscoreOK l then none
        else
          let mag : ℚ := (m.mant : ℚ) / base ^ m.frac
          some (if neg then -mag else mag)
      else none
    | some (e, eund) =>
      if (m.underscores || eund) && !underscoreOK l then none
      else
        let scale : ℚ := if hex then 2 else 10
        let mag : ℚ := (m.mant : ℚ) / base ^ m.frac *
          (if e ≥ 0 then scale ^ e.toNat else 1 / scale ^ (-e).toNat)
        some (if neg then -mag else mag)

/-- `strconv.ParseFloat(s, 64)`, as acceptance plus exact value: `none`
when Go reports a syntax error.  (Go additionally reports a range error —
while still returning `±Inf` or `0` — for finite syntax whose magnitude
overflows or underflows a double; that also takes the error branch in
`Validate`, and is not modelled: `goParseFloat` is `none` only on strings
Go rejects syntactically.) -/
def goParseFloat (l : List Char) : Option GoFloat :=
  match l with
  | [] => none
  | _ =>
    let (neg, r) :=
      match l with
      | '+' :: t => (false, t)
      | '-' :: t => (true, t)
      | _ => (false, l)
    let rl := r.map lowerChar
    if rl = S "inf" || rl = S "infinity" then some (.inf neg)
    else if l.map lowerChar = S "nan" then some .nan
    else
      match readFloatFull l with
      | some q => some (.finite q)
      | none => none

/-- `>` on parsed values with Go float semantics (`NaN` compares false). -/
def GoFloat.gt : GoFloat → GoFloat → Bool
  | .nan, _ => false
  | _, .nan => false
  | .inf n1, .inf n2 => !n1 && n2
  | .inf n1, .finite _ => !n1
  | .finite _, .inf n2 => n2
  | .finite a, .finite b => a > b

/-- `<` on parsed values. -/
def GoFloat.lt : GoFloat → GoFloat → Bool
  | .nan, _ => false
  | _, .nan => false
  | .inf n1, .inf n2 => n1 && !n2
  | .inf n1, .finite _ => n1
  | .finite _, .inf n2 => !n2
  | .finite a, .finite b => a < b

/-- `>=` on parsed values. -/
def GoFloat.ge : GoFloat → GoFloat → Bool
  | .nan, _ => false
  | _, .nan => false
  | .inf n1, .inf n2 => !n1 || n2
  | .inf n1, .finite _ => !n1
  | .finite _, .inf n2 => n2
  | .finite a, .finite b => a ≥ b

/-- `<=` on parsed values. -/
def GoFloat.le : GoFloat → GoFloat → Bool
  | .nan, _ => false
  | _, .nan => false
  | .inf n1, .inf n2 => n1 || !n2
  | .inf n1, .finite _ => n1
  | .finite _, .inf n2 => !n2
  | .finite a, .finite b => a ≤ b

/-! ## Assertion evaluation (`pkg/assertion/types.go`) -/

/-- `assertion.Assertion`: nilable predicate fields become `Option`s. -/
structure Assertion where
  Name : String := ""
  Description : String := ""
  Path : String := ""
  Equals : Option String := none
  Contains : Option String := none
  Matches : Option String := none
  Exists : Option Bool := none
  Absent : Option Bool := none
  GT : Option String := none
  LT : Option String := none
  GTE : Option String := none
  LTE : Option String := none
deriving DecidableEq, Repr

/-- `assertion.Result`.  The Go `error` value is modelled as an optional
message carrying the stable text the code formats (wrapped causes
dropped). -/
structure Result where
  Target : String := ""
  Assertion : Assertion := {}
  Passed : Bool := false
  ActualValue : String := ""
  Error : Option String := none
deriving DecidableEq, Repr

/-- Abstraction of Go's `regexp` package as `Validate` uses it:
`compile pat` is `none` when `regexp.Compile` fails, otherwise the
`MatchString` predicate of the compiled pattern. -/
structure RegexEngine where
  compile : String → Option (String → Bool)

/-- Threshold parsing in the numeric branch:
`threshold, _ := strconv.ParseFloat(t, 64)` ignores the error, in which
case Go's `ParseFloat` returns `0`. -/
def thresholdOf (t : String) : GoFloat :=
  (goParseFloat t.data).getD (.finite 0)

/-- `Assertion.Validate`, branch for branch: exists/absent short-circuits,
the existence requirement for all value predicates, then equals, contains,
matches, the numeric group (priority GT, LT, GTE, LTE), and the final
"no assertion type specified" error. -/
def Validate (re : RegexEngine) (a : Assertion) (value : String) (ex : Bool) :
    Result :=
  let base : Result :=
    { Target := "", Assertion := a, Passed := false, ActualValue := value,
      Error := none }
  if a.Exists.getD false then { base with Passed := ex }
  else if a.Absent.getD false then { base with Passed := !ex }
  else if !ex then { base with Error := some "path does not exist" }
  else
    match a.Equals with
    | some s => { base with Passed := value == s }
    | none =>
    match a.Contains with
    | some s => { base with Passed := containsSub value.data s.data }
    | none =>
    match a.Matches with
    | some pat =>
      (match re.compile pat with
       | none => { base with Error := some "invalid regex" }
       | some m => { base with Passed := m value })
    | none =>
    if a.GT.isSome || a.LT.isSome || a.GTE.isSome || a.LTE.isSome then
      match goParseFloat value.data with
      | none => { base with Error := some "value is not numeric" }
      | some actualNum =>
        match a.GT with
        | some t => { base with Passed := actualNum.gt (thresholdOf t) }
        | none =>
        match a.LT with
        | some t => { base with Passed := actualNum.lt (thresholdOf t) }
        | none =>
        match a.GTE with
        | some t => { base with Passed := actualNum.ge (thresholdOf t) }
        | none =>
        match a.LTE with
        | some t => { base with Passed := actualNum.le (thresholdOf t) }
        | none => base
    else { base with Error := some "no assertion type specified" }

/-! ## Runner (`pkg/runner/runner.go`) -/

/-- `assertion.Target` (the fields the runner reads). -/
structure Target where
  Host : String := ""
  Address : String := ""
  Username : String := ""
  Password : String := ""
  Insecure : Bool := false
  Assertions : List Assertion := []
deriving DecidableEq, Repr

/-- `Target.GetHost`: prefer `Host`, fall back to the deprecated
`Address`. -/
def Target.GetHost (t : Target) : String :=
  if t.Host ≠ "" then t.Host else t.Address

/-- Outcome of one `client.Get` call for a path: a value plus existence
flag, or a fetch error.  A context cancelled while the fetch is in flight
surfaces here as an error (gRPC fails the RPC with a `context canceled`
status, which `Get` wraps), not anywhere else: neither `Run` nor
`runTarget` consults the context directly, and `NewClient` dials with its
own fresh `context.Background()`-derived context. -/
inductive FetchOutcome where
  | ok (value : String) (ex : Bool)
  | err (msg : String)
deriving DecidableEq, Repr

/-- A connected client, modelled by the outcome each path's `Get`
yields. -/
def Client := String → FetchOutcome

/-- `runAssertion`: fetch the path, returning an error-only Result on
fetch failure, otherwise validate the fetched value. -/
def runAssertion (re : RegexEngine) (client : Client) (a : Assertion) :
    Result :=
  match client a.Path with
  | .err m =>
    { Target := "", Assertion := a, Passed := false, ActualValue := "",
      Error := some m }
  | .ok v ex => Validate re a v ex

/-- One target as the runner sees it: the target data plus the outcome of
its `gnmiclient.NewClient` connection attempt (`ConnectError` or a
client). -/
structure TargetSpec where
  target : Target
  connect : Except String Client

/-- `runTarget`: a connection failure aborts the whole target with a
`connect: …` error; otherwise every assertion produces exactly one Result
(concurrently in Go, bounded by `Parallel`; completion order only permutes
the list) with the target's host stamped on. -/
def runTarget (re : RegexEngine) (ts : TargetSpec) : Except String (List Result) :=
  match ts.connect with
  | .error e => .error ("connect: " ++ e)
  | .ok client =>
    .ok (ts.target.Assertions.map fun a =>
      { runAssertion re client a with Target := ts.target.GetHost })

/-- `runner.RunResult` (wall-clock duration not modelled). -/
structure RunResult where
  TotalAssertions : Nat := 0
  Passed : Nat := 0
  Failed : Nat := 0
  Errors : Nat := 0
  Results : List Result := []
deriving DecidableEq, Repr

/-- One iteration of the tally loop at the end of `Runner.Run`: total
increments; `Error != nil` counts as errored, otherwise `Passed` decides
between passed and failed. -/
def tallyStep (acc : RunResult) (res : Result) : RunResult :=
  { acc with
    TotalAssertions := acc.TotalAssertions + 1
    Errors := if res.Error.isSome then acc.Errors + 1 else acc.Errors
    Passed :=
      if res.Error.isSome then acc.Passed
      else if res.Passed then acc.Passed + 1 else acc.Passed
    Failed :=
      if res.Error.isSome then acc.Failed
      else if res.Passed then acc.Failed else acc.Failed + 1 }

/-- The tally loop at the end of `Runner.Run`, run over all Results. -/
def tally (rs : List Result) : RunResult :=
  rs.foldl tallyStep
    { TotalAssertions := 0, Passed := 0, Failed := 0, Errors := 0,
      Results := rs }

/-- The error-channel entry one target contributes: `runTarget`'s error —
there only on a connection failure — wrapped `target H: …`. -/
def runErrOf (p : String × Except String (List Result)) : Option String :=
  match p.2 with
  | .error e => some ("target " ++ p.1 ++ ": " ++ e)
  | .ok _ => none

/-- The appends into `allResults` (order among targets is scheduling
dependent in Go; the model keeps target order). -/
def runCollect (outcomes : List (String × Except String (List Result))) :
    List Result :=
  outcomes.foldr
    (fun p acc => match p.2 with | .ok rs => rs ++ acc | .error _ => acc) []

/-- `Runner.Run`: every target is processed to completion (Go runs them
concurrently, bounded by `Workers`, and waits on the whole group before
draining the error channel); if any target failed — which `runTarget` does
only on a connection failure — the run returns that error and no
`RunResult`; otherwise all Results are tallied.  Completion order affects
only the order of `Results` and which connect error surfaces first; the
model uses target order for both. -/
def run (re : RegexEngine) (targets : List TargetSpec) :
    Except String RunResult :=
  let outcomes := targets.map fun ts => (ts.target.GetHost, runTarget re ts)
  match outcomes.findSome? runErrOf with
  | some e => .error e
  | none => .ok (tally (runCollect outcomes))

/-- Whether an `Except` is a success (Go: error is `nil`). -/
def isOkE {ε α : Type} : Except ε α → Bool
  | .ok _ => true
  | .error _ => false

/-! ## Concrete fixtures used by witnesses and counterexamples -/

/-- A regex engine whose compile always fails; no theorem below ever
reaches the `Matches` branch with it. -/
def trivialEngine : RegexEngine := ⟨fun _ => none⟩

/-- The `{rest}` template placeholder. -/
def restPlaceholder : List Char := S "\x7brest\x7d"

/-- The `{instance}` template placeholder. -/
def instancePlaceholder : List Char := S "\x7binstance\x7d"

/-- The `bgp[` short form built from its captures. -/
def bgpShort (inst rest : List Char) : List Char :=
  S "bgp[" ++ inst ++ S "]/" ++ rest

/-- The `ospf[` short form built from its captures. -/
def ospfShort (inst rest : List Char) : List Char :=
  S "ospf[" ++ inst ++ S "]/" ++ rest

/-- The `isis[` short form built from its captures. -/
def isisShort (inst rest : List Char) : List Char :=
  S "isis[" ++ inst ++ S "]/" ++ rest

/-- The `interface[` short form built from its captures. -/
def ifaceShort (inst rest : List Char) : List Char :=
  S "interface[" ++ inst ++ S "]/" ++ rest

/-- The `network-instance[` short form built from its captures. -/
def niShort (inst rest : List Char) : List Char :=
  S "network-instance[" ++ inst ++ S "]/" ++ rest

/-- The `lldp/` short form built from its capture. -/
def lldpShort (r : List Char) : List Char := S "lldp/" ++ r

/-- The `system/` short form built from its capture. -/
def systemShort (r : List Char) : List Char := S "system/" ++ r

/-- A one-target, one-assertion run whose connection succeeds but whose
single fetch observes context cancellation (the wrapped gRPC status
`Get` produces). -/
def cancelExample : List TargetSpec :=
  [⟨{ Host := "h",
      Assertions := [{ Path := "/p", Equals := some "UP" }] },
    .ok fun _ => .err "get: context canceled"⟩]

end Netsert

deriving instance DecidableEq for Except

namespace Netsert

/-! # Theorems -/

/-! ## Helper lemmas -/

/-- A nilable Bool that is not "set and true" reads as false through
`getD`. -/
theorem getD_false_of_ne_some_true {o : Option Bool} (h : o ≠ some true) :
    o.getD false = false := by
  rcases o with - | b
  · rfl
  · cases b
    · rfl
    · exact absurd rfl h

/-- Every segment emitted by the tokenizer loop is nonempty (flushes are
guarded by `current.Len() > 0`). -/
theorem splitPathAux_mem_ne_nil :
    ∀ (l : List Char) (depth : Int) (current s : List Char),
      s ∈ splitPathAux l depth current → s ≠ [] := by
  intro l
  induction l with
  | nil =>
    intro depth current s hs
    by_cases hc : current = [] <;> simp [splitPathAux, hc] at hs
    subst hs; exact hc
  | cons c t ih =>
    intro depth current s hs
    rw [splitPathAux] at hs
    split_ifs at hs with h1 h2 h3 h4 h5
    · exact ih _ _ _ hs
    · exact ih _ _ _ hs
    · exact ih _ _ _ hs
    · rcases List.mem_cons.mp hs with rfl | hs'
      · exact h5
      · exact ih _ _ _ hs'
    · exact ih _ _ _ hs
    · exact ih _ _ _ hs

/-- Counter bookkeeping of the tally fold, relative to any starting
accumulator. -/
theorem foldl_tallyStep (rs : List Result) :
    ∀ acc : RunResult,
      (rs.foldl tallyStep acc).TotalAssertions =
        acc.TotalAssertions + rs.length ∧
      (rs.foldl tallyStep acc).Errors =
        acc.Errors + rs.countP (fun r => r.Error.isSome) ∧
      (rs.foldl tallyStep acc).Passed =
        acc.Passed + rs.countP (fun r => r.Error.isNone && r.Passed) ∧
      (rs.foldl tallyStep acc).Failed =
        acc.Failed + rs.countP (fun r => r.Error.isNone && !r.Passed) := by
  induction rs with
  | nil => intro acc; simp
  | cons r rs ih =>
    intro acc
    simp only [List.foldl_cons, List.countP_cons]
    obtain ⟨ih1, ih2, ih3, ih4⟩ := ih (tallyStep acc r)
    rw [ih1, ih2, ih3, ih4]
    rcases herr : r.Error with - | v <;> by_cases hp : r.Passed <;>
      simp [tallyStep, herr, hp] <;> omega

/-- The fold never touches the `Results` field. -/
theorem foldl_tallyStep_results (rs : List Result) :
    ∀ acc : RunResult, (rs.foldl tallyStep acc).Results = acc.Results := by
  induction rs with
  | nil => intro acc; rfl
  | cons r rs ih =>
    intro acc
    simp only [List.foldl_cons]
    rw [ih]
    rfl

/-! ## C2 — tokenizer and bracket imbalance -/

/-- C2 counterexample: `]x` sends the depth negative and `a[b` ends at
depth one, yet `splitPath` returns segments for both — it signals no
error of any kind (its result type carries none), and even the full
`parsePath` accepts `]x` — refuting the claim that the tokenizer fails
with `MalformedPathError` whenever brackets are unbalanced. -/
theorem splitPath_accepts_unbalanced :
    specUnbalanced (S "]x") = true ∧
    splitPath (S "]x") = [S "]x"] ∧
    parsePath (S "]x") = .ok [⟨S "]x", []⟩] ∧
    specUnbalanced (S "a[b") = true ∧
    splitPath (S "a[b") = [S "a[b"] := by decide

/-- C2 (amended): the tokenizer `splitPath` never reports an error: for
every input — balanced or not — it returns a list of (always nonempty)
segments, and the empty input yields the empty sequence.  Bracket
imbalance is not detected at tokenization; an unclosed `[` inside a
segment is rejected later, by `parsePathElem`. -/
theorem splitPath_total_never_errors :
    splitPath (S "") = [] ∧
    (∀ l s : List Char, s ∈ splitPath l → s ≠ []) := by
  refine ⟨rfl, ?_⟩
  intro l s hs
  exact splitPathAux_mem_ne_nil l 0 [] s hs

/-- Witness for C2's amended theorem at a concrete tokenization. -/
theorem splitPath_total_never_errors_witness : S "a" ≠ ([] : List Char) :=
  splitPath_total_never_errors.2 (S "a/b") (S "a") (by decide)

/-! ## C3 — value predicates require existence -/

/-- C3: when neither `Exists` nor `Absent` is set-and-true (so the only
set predicate kinds are the value-requiring ones), `Validate` with
`exists = false` yields the error verdict "path does not exist" — not a
plain failed verdict — regardless of the value. -/
theorem validate_missing_value_errors (re : RegexEngine) (a : Assertion)
    (value : String)
    (hset : a.Equals.isSome ∨ a.Contains.isSome ∨ a.Matches.isSome ∨
      a.GT.isSome ∨ a.LT.isSome ∨ a.GTE.isSome ∨ a.LTE.isSome)
    (hex : a.Exists ≠ some true) (hab : a.Absent ≠ some true) :
    (Validate re a value false).Error = some "path does not exist" ∧
    (Validate re a value false).Passed = false := by
  simp [Validate, getD_false_of_ne_some_true hex,
    getD_false_of_ne_some_true hab]

/-- Witness for C3 at `Equals = "UP"`, `exists = false`. -/
theorem validate_missing_value_errors_witness :
    (Validate trivialEngine { Equals := some "UP" } "" false).Error =
      some "path does not exist" ∧
    (Validate trivialEngine { Equals := some "UP" } "" false).Passed = false :=
  validate_missing_value_errors trivialEngine { Equals := some "UP" } ""
    (Or.inl (by decide)) (by decide) (by decide)

/-! ## C4 — `Exists` short-circuits -/

/-- C4: with `Exists` set and true, `Validate` returns `Passed = exists`
and no error, for every value, existence flag and regex engine — the
value content is never consulted and no other predicate kind is
evaluated. -/
theorem validate_exists_short_circuits (re : RegexEngine) (a : Assertion)
    (value : String) (ex : Bool) (h : a.Exists = some true) :
    (Validate re a value ex).Passed = ex ∧
    (Validate re a value ex).Error = none := by
  simp [Validate, h]

/-- Witness for C4 at `exists = false`. -/
theorem validate_exists_short_circuits_witness :
    (Validate trivialEngine { Exists := some true } "DOWN" false).Passed =
      false ∧
    (Validate trivialEngine { Exists := some true } "DOWN" false).Error =
      none :=
  validate_exists_short_circuits trivialEngine { Exists := some true }
    "DOWN" false rfl

/-! ## C5 — non-numeric value under a numeric predicate -/

/-- C5: with a numeric comparison predicate set (and no earlier predicate
kind set), `exists = true` and a value `strconv.ParseFloat` rejects,
`Validate` returns the error verdict "value is not numeric" (and, being a
total function, cannot panic). -/
theorem validate_non_numeric_errors (re : RegexEngine) (a : Assertion)
    (value : String)
    (hset : a.GT.isSome ∨ a.LT.isSome ∨ a.GTE.isSome ∨ a.LTE.isSome)
    (hex : a.Exists ≠ some true) (hab : a.Absent ≠ some true)
    (h1 : a.Equals = none) (h2 : a.Contains = none) (h3 : a.Matches = none)
    (hnum : goParseFloat value.data = none) :
    (Validate re a value true).Error = some "value is not numeric" ∧
    (Validate re a value true).Passed = false := by
  have hguard :
      (a.GT.isSome || a.LT.isSome || a.GTE.isSome || a.LTE.isSome) = true := by
    rcases hset with h | h | h | h <;> simp [h]
  simp [Validate, getD_false_of_ne_some_true hex,
    getD_false_of_ne_some_true hab, h1, h2, h3, hguard, hnum]

/-- Witness for C5: `GT = "10"` with value `"abc"`. -/
theorem validate_non_numeric_errors_witness :
    (Validate trivialEngine { GT := some "10" } "abc" true).Error =
      some "value is not numeric" ∧
    (Validate trivialEngine { GT := some "10" } "abc" true).Passed = false :=
  validate_non_numeric_errors trivialEngine { GT := some "10" } "abc"
    (Or.inl (by decide)) (by decide) (by decide) rfl rfl rfl (by decide)

/-! ## C6 — no predicate kind set -/

/-- C6: with no predicate kind set at all and `exists = true`, `Validate`
returns the error verdict "no assertion type specified" — never a pass
and never a silent failure. -/
theorem validate_no_predicate_errors (re : RegexEngine) (a : Assertion)
    (value : String)
    (h1 : a.Equals = none) (h2 : a.Contains = none) (h3 : a.Matches = none)
    (h4 : a.Exists = none) (h5 : a.Absent = none)
    (h6 : a.GT = none) (h7 : a.LT = none) (h8 : a.GTE = none)
    (h9 : a.LTE = none) :
    (Validate re a value true).Error = some "no assertion type specified" ∧
    (Validate re a value true).Passed = false := by
  simp [Validate, h1, h2, h3, h4, h5, h6, h7, h8, h9]

/-- Witness for C6 at the all-unset assertion. -/
theorem validate_no_predicate_errors_witness :
    (Validate trivialEngine {} "x" true).Error =
      some "no assertion type specified" ∧
    (Validate trivialEngine {} "x" true).Passed = false :=
  validate_no_predicate_errors trivialEngine {} "x"
    rfl rfl rfl rfl rfl rfl rfl rfl rfl

/-! ## C9 — `exists: false` does not short-circuit -/

/-- C9: an assertion with `Exists` set to false (and likewise `Absent`
set to false) does not short-circuit on the existence flag: evaluation
falls through to the remaining predicate kinds — reaching
"no assertion type specified" when nothing else is set, the
"path does not exist" error when the path is missing (where `absent:true`
would have passed), and the `Equals` comparison when `Equals` is set — so
`exists: false` never behaves like `absent: true`. -/
theorem validate_exists_false_falls_through :
    (∀ (re : RegexEngine) (a : Assertion) (value : String),
      a.Exists = some false → a.Absent = some false →
      a.Equals = none → a.Contains = none → a.Matches = none →
      a.GT = none → a.LT = none → a.GTE = none → a.LTE = none →
      (Validate re a value true).Error = some "no assertion type specified" ∧
      (Validate re a value true).Passed = false) ∧
    (∀ (re : RegexEngine) (a : Assertion) (value : String),
      a.Exists = some false → a.Absent = some false →
      (Validate re a value false).Error = some "path does not exist" ∧
      (Validate re a value false).Passed = false) ∧
    (∀ (re : RegexEngine) (a : Assertion) (value s : String),
      a.Exists = some false → a.Absent ≠ some true → a.Equals = some s →
      (Validate re a value true).Passed = (value == s) ∧
      (Validate re a value true).Error = none) := by
  refine ⟨?_, ?_, ?_⟩
  · intro re a value hE hA h1 h2 h3 h4 h5 h6 h7
    simp [Validate, hE, hA, h1, h2, h3, h4, h5, h6, h7]
  · intro re a value hE hA
    simp [Validate, hE, hA]
  · intro re a value s hE hA hq
    simp [Validate, hE, getD_false_of_ne_some_true hA, hq]

/-- Witness for C9: `exists: false` with `equals` set falls through to
the equality comparison. -/
theorem validate_exists_false_falls_through_witness :
    (Validate trivialEngine { Exists := some false, Equals := some "UP" }
      "UP" true).Passed = ("UP" == "UP") ∧
    (Validate trivialEngine { Exists := some false, Equals := some "UP" }
      "UP" true).Error = none :=
  validate_exists_false_falls_through.2.2 trivialEngine
    { Exists := some false, Equals := some "UP" } "UP" "UP"
    rfl (by decide) rfl

/-! ## C10 — trailing text after the last key group is discarded -/

/-- C10: the key-group loop stops at the first character after a closed
`]` that is not `[`, silently discarding the trailing text rather than
rejecting it; in particular `if[a=1]x` parses without error to name `if`
with keys `{a: "1"}`, dropping `x`. -/
theorem parsePathElem_discards_trailing :
    (∀ (seg : List Char) (acc : List (List Char × List Char)) (t : List Char),
      t.head? ≠ some '[' → parseKeys seg t none acc = .ok acc) ∧
    parsePathElem (S "if[a=1]x") = .ok ⟨S "if", [(S "a", S "1")]⟩ := by
  constructor
  · intro seg acc t h
    match t with
    | [] => rfl
    | c :: t' =>
      have hc : ¬c = '[' := by simpa using h
      simp [parseKeys, hc]
  · decide

/-- Witness for C10's loop-break clause at a concrete remainder. -/
theorem parsePathElem_discards_trailing_witness :
    parseKeys (S "if[a=1]x") (S "x") none [(S "a", S "1")] =
      .ok [(S "a", S "1")] :=
  parsePathElem_discards_trailing.1 (S "if[a=1]x") [(S "a", S "1")] (S "x")
    (by decide)

/-! ## List lemmas for the path round trip (C1) -/

/-- A list is a (boolean) prefix of itself followed by anything. -/
theorem isPrefixOf_append_self (l t : List Char) :
    l.isPrefixOf (l ++ t) = true :=
  List.isPrefixOf_iff_prefix.mpr (List.prefix_append l t)

/-- `splitFirst` finds the marked occurrence when the prefix avoids the
character. -/
theorem splitFirst_append (c : Char) (a b : List Char) (h : c ∉ a) :
    splitFirst c (a ++ c :: b) = some (a, b) := by
  induction a with
  | nil => simp [splitFirst]
  | cons d a ih =>
    have hd : ¬d = c := fun hdc => h (hdc ▸ List.mem_cons_self d a)
    simp [splitFirst, hd, ih fun hc => h (List.mem_cons_of_mem d hc)]

/-- Replacing a pattern sitting at the very front. -/
theorem replaceFirst_at (pat s rep : List Char) :
    replaceFirst (pat ++ s) pat rep = rep ++ s := by
  rcases pat with - | ⟨p, pr⟩
  · rcases s with - | ⟨c, t⟩ <;> simp [replaceFirst]
  · have hp : (p :: pr).isPrefixOf ((p :: pr) ++ s) = true :=
      isPrefixOf_append_self _ _
    have hd : ((p :: pr) ++ s).drop (p :: pr).length = s := List.drop_left _ _
    simp only [List.cons_append] at hp hd ⊢
    simp [replaceFirst, hp, hd]

/-- Replacing a pattern by itself at the front (no trailing text). -/
theorem replaceFirst_self (pat rep : List Char) :
    replaceFirst pat pat rep = rep := by
  have h := replaceFirst_at pat [] rep
  simpa using h

/-- `replaceFirst` walks over a block that does not contain the pattern's
first character. -/
theorem replaceFirst_append_left (p0 : Char) (pr a b rep : List Char)
    (h : p0 ∉ a) :
    replaceFirst (a ++ b) (p0 :: pr) rep =
      a ++ replaceFirst b (p0 :: pr) rep := by
  induction a with
  | nil => simp
  | cons c a ih =>
    have hc : ¬p0 = c := fun hpc => h (hpc ▸ List.mem_cons_self c a)
    have hpre : (p0 :: pr).isPrefixOf (c :: (a ++ b)) = false := by
      simp [List.isPrefixOf, hc]
    simp [replaceFirst, hpre, ih fun hm => h (List.mem_cons_of_mem c hm)]

/-- A pattern avoiding a character cannot start inside a block and reach
across that character: any match within `a2 ++ c :: z` that is a prefix of
the whole is already a prefix of `a2`. -/
theorem isPrefixOf_confined (pat a2 z : List Char) (c : Char) (hc : c ∉ pat)
    (h : pat.isPrefixOf (a2 ++ c :: z) = true) :
    pat.isPrefixOf a2 = true := by
  rw [List.isPrefixOf_iff_prefix] at h ⊢
  by_cases hl : pat.length ≤ a2.length
  · exact List.prefix_of_prefix_length_le h (List.prefix_append a2 (c :: z)) hl
  · exfalso
    obtain ⟨t, ht⟩ := h
    have h1 : (pat ++ t).take (a2.length + 1) = a2 ++ [c] := by
      rw [ht, List.take_append]
      simp
    have h2 : (pat ++ t).take (a2.length + 1) = pat.take (a2.length + 1) :=
      List.take_append_of_le_length (by omega)
    have h3 : c ∈ pat.take (a2.length + 1) := by
      rw [← h2, h1]
      simp
    exact hc (List.take_subset _ _ h3)

/-- `replaceFirst` walks over a block free of `{rest}` occurrences when a
`]` — a character foreign to the placeholder — follows the block. -/
theorem replaceFirst_append_no_occ (inst z rep : List Char)
    (h : containsSub inst restPlaceholder = false) :
    replaceFirst (inst ++ ']' :: z) restPlaceholder rep =
      inst ++ replaceFirst (']' :: z) restPlaceholder rep := by
  induction inst with
  | nil => simp
  | cons c t ih =>
    simp only [containsSub, Bool.or_eq_false_iff] at h
    have hpre : restPlaceholder.isPrefixOf ((c :: t) ++ ']' :: z) = false := by
      rcases Bool.eq_false_or_eq_true
          (restPlaceholder.isPrefixOf ((c :: t) ++ ']' :: z)) with hf | hf
      · have := isPrefixOf_confined restPlaceholder (c :: t) z ']'
          (by decide) hf
        rw [h.1] at this
        cases this
      · exact hf
    simp only [List.cons_append] at hpre ⊢
    simp only [replaceFirst, hpre, Bool.false_eq_true, if_false]
    rw [ih h.2]
    simp [replaceFirst]

/-- A pattern with no occurrence is not replaced at all. -/
theorem replaceFirst_no_occurrence (l pat rep : List Char)
    (h : containsSub l pat = false) : replaceFirst l pat rep = l := by
  induction l with
  | nil =>
    simp only [containsSub] at h
    simp [replaceFirst, h]
  | cons c t ih =>
    simp only [containsSub, Bool.or_eq_false_iff] at h
    simp [replaceFirst, h.1, ih h.2]

/-- Concrete prefix disagreement: when two concrete strings differ within
their common length, one is a prefix of nothing that starts with the
other. -/
theorem isPrefixOf_append_false (x y : List Char)
    (h : x.take y.length ≠ y.take x.length) :
    ∀ rest, x.isPrefixOf (y ++ rest) = false := by
  intro rest
  rcases Bool.eq_false_or_eq_true (x.isPrefixOf (y ++ rest)) with ht | hf
  case inr => exact hf
  · exfalso
    rw [List.isPrefixOf_iff_prefix] at ht
    by_cases hl : x.length ≤ y.length
    · have hxy : x <+: y :=
        List.prefix_of_prefix_length_le ht (List.prefix_append y rest) hl
      apply h
      rw [List.take_of_length_le hl, ← List.prefix_iff_eq_take.mp hxy]
    · have hyx : y <+: x :=
        List.prefix_of_prefix_length_le (List.prefix_append y rest) ht
          (by omega)
      apply h
      rw [← List.prefix_iff_eq_take.mp hyx,
        List.take_of_length_le (by omega)]

/-! ## Table-entry matching lemmas (C1) -/

/-- A keyed entry matches its own short form. -/
theorem keyedMatch_pos (pat inst rest : List Char) (h1 : inst ≠ [])
    (h2 : ']' ∉ inst) :
    keyedMatch pat (pat ++ (inst ++ (']' :: '/' :: rest))) =
      some (inst, rest) := by
  have hp := isPrefixOf_append_self pat (inst ++ (']' :: '/' :: rest))
  have hd := List.drop_left pat (inst ++ (']' :: '/' :: rest))
  have hs := splitFirst_append ']' inst ('/' :: rest) h2
  simp [keyedMatch, hp, hd, hs, h1]

/-- A keyed entry fails when its pattern is not a prefix. -/
theorem keyedMatch_neg (pat l : List Char) (h : pat.isPrefixOf l = false) :
    keyedMatch pat l = none := by
  simp [keyedMatch, h]

/-- A plain entry matches its own short form. -/
theorem plainMatch_pos (pat r : List Char) :
    plainMatch pat (pat ++ r) = some r := by
  simp [plainMatch, isPrefixOf_append_self, List.drop_left]

/-- A plain entry fails when its pattern is not a prefix. -/
theorem plainMatch_neg (pat l : List Char) (h : pat.isPrefixOf l = false) :
    plainMatch pat l = none := by
  simp [plainMatch, h]

/-- A compaction rule matches the canonical form it targets. -/
theorem compactMatch_pos (cpre ctail inst rest : List Char) (h1 : inst ≠ [])
    (h2 : ']' ∉ inst) :
    compactMatch cpre ctail (cpre ++ (inst ++ (']' :: (ctail ++ rest)))) =
      some (inst, rest) := by
  have hp := isPrefixOf_append_self cpre (inst ++ (']' :: (ctail ++ rest)))
  have hd := List.drop_left cpre (inst ++ (']' :: (ctail ++ rest)))
  have hs := splitFirst_append ']' inst (ctail ++ rest) h2
  have hc := isPrefixOf_append_self ctail rest
  have hd2 := List.drop_left ctail rest
  simp [compactMatch, hp, hd, hs, h1, hc, hd2]

/-- A compaction rule fails when its anchor prefix does not match. -/
theorem compactMatch_neg_pre (cpre ctail l : List Char)
    (h : cpre.isPrefixOf l = false) : compactMatch cpre ctail l = none := by
  simp [compactMatch, h]

/-- A compaction rule fails when the literal after the first `]` does not
match. -/
theorem compactMatch_neg_tail (cpre ctail inst mid : List Char)
    (h2 : ']' ∉ inst) (htail : ctail.isPrefixOf mid = false) :
    compactMatch cpre ctail (cpre ++ (inst ++ (']' :: mid))) = none := by
  have hp := isPrefixOf_append_self cpre (inst ++ (']' :: mid))
  have hd := List.drop_left cpre (inst ++ (']' :: mid))
  have hs := splitFirst_append ']' inst mid h2
  simp [compactMatch, hp, hd, hs, htail]

/-- `replaceFirst` with the `{rest}` placeholder walks over a brace-free
block. -/
theorem replaceFirst_append_left_rp (a b rep : List Char) (h : lbrace ∉ a) :
    replaceFirst (a ++ b) restPlaceholder rep =
      a ++ replaceFirst b restPlaceholder rep := by
  rw [show restPlaceholder = lbrace :: S "rest\x7d" from by decide]
  exact replaceFirst_append_left _ _ _ _ _ h

/-- `replaceFirst` with the `{instance}` placeholder walks over a
brace-free block. -/
theorem replaceFirst_append_left_ip (a b rep : List Char) (h : lbrace ∉ a) :
    replaceFirst (a ++ b) instancePlaceholder rep =
      a ++ replaceFirst b instancePlaceholder rep := by
  rw [show instancePlaceholder = lbrace :: S "instance\x7d" from by decide]
  exact replaceFirst_append_left _ _ _ _ _ h

/-- Template instantiation for a two-group entry whose template splits as
`tpre ++ {instance} ++ ] ++ tmid ++ {rest}` with braces absent from `tpre`
and `tmid`: the captures land exactly in their slots provided the
instance contains no `{rest}` occurrence. -/
theorem instantiate2_eq (tpre tmid inst rest : List Char)
    (hpre : lbrace ∉ tpre) (hmid : lbrace ∉ tmid)
    (hinst : containsSub inst restPlaceholder = false) :
    instantiate2
        (tpre ++ (instancePlaceholder ++ (']' :: (tmid ++ restPlaceholder))))
        inst rest =
      tpre ++ (inst ++ (']' :: (tmid ++ rest))) := by
  have e1 : (S "\x7binstance\x7d" : List Char) = instancePlaceholder := rfl
  have e2 : (S "\x7brest\x7d" : List Char) = restPlaceholder := rfl
  rw [instantiate2, e1, e2]
  rw [replaceFirst_append_left_ip tpre _ inst hpre]
  rw [replaceFirst_at instancePlaceholder _ inst]
  rw [replaceFirst_append_left_rp tpre _ rest hpre]
  rw [replaceFirst_append_no_occ inst (tmid ++ restPlaceholder) rest hinst]
  rw [show (']' :: (tmid ++ restPlaceholder) : List Char) =
    [']'] ++ (tmid ++ restPlaceholder) from rfl]
  rw [replaceFirst_append_left_rp ([']'] : List Char) _ rest (by decide)]
  rw [replaceFirst_append_left_rp tmid restPlaceholder rest hmid]
  rw [replaceFirst_self restPlaceholder rest]
  rfl

/-- Template instantiation for a one-group entry (`tpre ++ {instance}`):
the capture lands in its slot and the second `Replace` — of `{rest}` by
the empty string — changes nothing when the capture has no `{rest}`
occurrence. -/
theorem instantiate1_eq (tpre cap : List Char) (hpre : lbrace ∉ tpre)
    (hcap : containsSub cap restPlaceholder = false) :
    instantiate1 (tpre ++ instancePlaceholder) cap = tpre ++ cap := by
  have e1 : (S "\x7binstance\x7d" : List Char) = instancePlaceholder := rfl
  have e2 : (S "\x7brest\x7d" : List Char) = restPlaceholder := rfl
  rw [instantiate1, e1, e2]
  rw [replaceFirst_append_left_ip tpre instancePlaceholder cap hpre]
  rw [replaceFirst_self instancePlaceholder cap]
  rw [replaceFirst_append_left_rp tpre cap ([] : List Char) hpre]
  rw [replaceFirst_no_occurrence cap restPlaceholder [] hcap]

/-! ## Per-entry expansion lemmas (C1) -/

/-- Expansion of a matching `bgp[` short form. -/
theorem expandPath_bgpShort (inst rest : List Char) (h1 : inst ≠ [])
    (h2 : ']' ∉ inst) (h3 : containsSub inst restPlaceholder = false) :
    expandPath (bgpShort inst rest) =
      S "/network-instances/network-instance[name=" ++
        (inst ++ (']' ::
          (S "/protocols/protocol[identifier=BGP][name=BGP]/bgp/" ++
            rest))) := by
  have hshape : bgpShort inst rest =
      S "bgp[" ++ (inst ++ (']' :: '/' :: rest)) := by
    simp only [bgpShort, List.append_assoc]
    rfl
  rw [hshape]
  have habs := isPrefixOf_append_false (S "/") (S "bgp[") (by decide)
    (inst ++ (']' :: '/' :: rest))
  have hm := keyedMatch_pos (S "bgp[") inst rest h1 h2
  simp only [expandPath, expandMatch, habs, hm, Bool.false_eq_true, if_false]
  rw [show bgpTemplate =
    S "/network-instances/network-instance[name=" ++
      (instancePlaceholder ++ (']' ::
        (S "/protocols/protocol[identifier=BGP][name=BGP]/bgp/" ++
          restPlaceholder))) from by decide]
  exact instantiate2_eq _ _ _ _ (by decide) (by decide) h3

/-- Expansion of a matching `ospf[` short form. -/
theorem expandPath_ospfShort (inst rest : List Char) (h1 : inst ≠ [])
    (h2 : ']' ∉ inst) (h3 : containsSub inst restPlaceholder = false) :
    expandPath (ospfShort inst rest) =
      S "/network-instances/network-instance[name=" ++
        (inst ++ (']' ::
          (S "/protocols/protocol[identifier=OSPF][name=OSPF]/ospf/" ++
            rest))) := by
  have hshape : ospfShort inst rest =
      S "ospf[" ++ (inst ++ (']' :: '/' :: rest)) := by
    simp only [ospfShort, List.append_assoc]
    rfl
  rw [hshape]
  have habs := isPrefixOf_append_false (S "/") (S "ospf[") (by decide)
    (inst ++ (']' :: '/' :: rest))
  have hn1 := keyedMatch_neg (S "bgp[") _
    (isPrefixOf_append_false (S "bgp[") (S "ospf[") (by decide)
      (inst ++ (']' :: '/' :: rest)))
  have hm := keyedMatch_pos (S "ospf[") inst rest h1 h2
  simp only [expandPath, expandMatch, habs, hn1, hm, Bool.false_eq_true,
    if_false]
  rw [show ospfTemplate =
    S "/network-instances/network-instance[name=" ++
      (instancePlaceholder ++ (']' ::
        (S "/protocols/protocol[identifier=OSPF][name=OSPF]/ospf/" ++
          restPlaceholder))) from by decide]
  exact instantiate2_eq _ _ _ _ (by decide) (by decide) h3

/-- Expansion of a matching `isis[` short form. -/
theorem expandPath_isisShort (inst rest : List Char) (h1 : inst ≠ [])
    (h2 : ']' ∉ inst) (h3 : containsSub inst restPlaceholder = false) :
    expandPath (isisShort inst rest) =
      S "/network-instances/network-instance[name=" ++
        (inst ++ (']' ::
          (S "/protocols/protocol[identifier=ISIS][name=ISIS]/isis/" ++
            rest))) := by
  have hshape : isisShort inst rest =
      S "isis[" ++ (inst ++ (']' :: '/' :: rest)) := by
    simp only [isisShort, List.append_assoc]
    rfl
  rw [hshape]
  have habs := isPrefixOf_append_false (S "/") (S "isis[") (by decide)
    (inst ++ (']' :: '/' :: rest))
  have hn1 := keyedMatch_neg (S "bgp[") _
    (isPrefixOf_append_false (S "bgp[") (S "isis[") (by decide)
      (inst ++ (']' :: '/' :: rest)))
  have hn2 := keyedMatch_neg (S "ospf[") _
    (isPrefixOf_append_false (S "ospf[") (S "isis[") (by decide)
      (inst ++ (']' :: '/' :: rest)))
  have hm := keyedMatch_pos (S "isis[") inst rest h1 h2
  simp only [expandPath, expandMatch, habs, hn1, hn2, hm, Bool.false_eq_true,
    if_false]
  rw [show isisTemplate =
    S "/network-instances/network-instance[name=" ++
      (instancePlaceholder ++ (']' ::
        (S "/protocols/protocol[identifier=ISIS][name=ISIS]/isis/" ++
          restPlaceholder))) from by decide]
  exact instantiate2_eq _ _ _ _ (by decide) (by decide) h3

/-- Expansion of a matching `interface[` short form. -/
theorem expandPath_ifaceShort (inst rest : List Char) (h1 : inst ≠ [])
    (h2 : ']' ∉ inst) (h3 : containsSub inst restPlaceholder = false) :
    expandPath (ifaceShort inst rest) =
      S "/interfaces/interface[name=" ++
        (inst ++ (']' :: (S "/" ++ rest))) := by
  have hshape : ifaceShort inst rest =
      S "interface[" ++ (inst ++ (']' :: '/' :: rest)) := by
    simp only [ifaceShort, List.append_assoc]
    rfl
  rw [hshape]
  have habs := isPrefixOf_append_false (S "/") (S "interface[") (by decide)
    (inst ++ (']' :: '/' :: rest))
  have hn1 := keyedMatch_neg (S "bgp[") _
    (isPrefixOf_append_false (S "bgp[") (S "interface[") (by decide)
      (inst ++ (']' :: '/' :: rest)))
  have hn2 := keyedMatch_neg (S "ospf[") _
    (isPrefixOf_append_false (S "ospf[") (S "interface[") (by decide)
      (inst ++ (']' :: '/' :: rest)))
  have hn3 := keyedMatch_neg (S "isis[") _
    (isPrefixOf_append_false (S "isis[") (S "interface[") (by decide)
      (inst ++ (']' :: '/' :: rest)))
  have hm := keyedMatch_pos (S "interface[") inst rest h1 h2
  simp only [expandPath, expandMatch, habs, hn1, hn2, hn3, hm,
    Bool.false_eq_true, if_false]
  rw [show ifaceTemplate =
    S "/interfaces/interface[name=" ++
      (instancePlaceholder ++ (']' :: (S "/" ++ restPlaceholder)))
    from by decide]
  exact instantiate2_eq _ _ _ _ (by decide) (by decide) h3

/-- Expansion of a matching `network-instance[` short form. -/
theorem expandPath_niShort (inst rest : List Char) (h1 : inst ≠ [])
    (h2 : ']' ∉ inst) (h3 : containsSub inst restPlaceholder = false) :
    expandPath (niShort inst rest) =
      S "/network-instances/network-instance[name=" ++
        (inst ++ (']' :: (S "/" ++ rest))) := by
  have hshape : niShort inst rest =
      S "network-instance[" ++ (inst ++ (']' :: '/' :: rest)) := by
    simp only [niShort, List.append_assoc]
    rfl
  rw [hshape]
  have habs := isPrefixOf_append_false (S "/") (S "network-instance[")
    (by decide) (inst ++ (']' :: '/' :: rest))
  have hn1 := keyedMatch_neg (S "bgp[") _
    (isPrefixOf_append_false (S "bgp[") (S "network-instance[") (by decide)
      (inst ++ (']' :: '/' :: rest)))
  have hn2 := keyedMatch_neg (S "ospf[") _
    (isPrefixOf_append_false (S "ospf[") (S "network-instance[") (by decide)
      (inst ++ (']' :: '/' :: rest)))
  have hn3 := keyedMatch_neg (S "isis[") _
    (isPrefixOf_append_false (S "isis[") (S "network-instance[") (by decide)
      (inst ++ (']' :: '/' :: rest)))
  have hn4 := keyedMatch_neg (S "interface[") _
    (isPrefixOf_append_false (S "interface[") (S "network-instance[")
      (by decide) (inst ++ (']' :: '/' :: rest)))
  have hn5 := plainMatch_neg (S "lldp/") _
    (isPrefixOf_append_false (S "lldp/") (S "network-instance[") (by decide)
      (inst ++ (']' :: '/' :: rest)))
  have hn6 := plainMatch_neg (S "system/") _
    (isPrefixOf_append_false (S "system/") (S "network-instance[")
      (by decide) (inst ++ (']' :: '/' :: rest)))
  have hm := keyedMatch_pos (S "network-instance[") inst rest h1 h2
  simp only [expandPath, expandMatch, habs, hn1, hn2, hn3, hn4, hn5, hn6, hm,
    Bool.false_eq_true, if_false]
  rw [show niTemplate =
    S "/network-instances/network-instance[name=" ++
      (instancePlaceholder ++ (']' :: (S "/" ++ restPlaceholder)))
    from by decide]
  exact instantiate2_eq _ _ _ _ (by decide) (by decide) h3

/-- Expansion of a `lldp/` short form. -/
theorem expandPath_lldpShort (r : List Char)
    (h3 : containsSub r restPlaceholder = false) :
    expandPath (lldpShort r) = S "/lldp/" ++ r := by
  rw [show lldpShort r = S "lldp/" ++ r from rfl]
  have habs := isPrefixOf_append_false (S "/") (S "lldp/") (by decide) r
  have hn1 := keyedMatch_neg (S "bgp[") _
    (isPrefixOf_append_false (S "bgp[") (S "lldp/") (by decide) r)
  have hn2 := keyedMatch_neg (S "ospf[") _
    (isPrefixOf_append_false (S "ospf[") (S "lldp/") (by decide) r)
  have hn3 := keyedMatch_neg (S "isis[") _
    (isPrefixOf_append_false (S "isis[") (S "lldp/") (by decide) r)
  have hn4 := keyedMatch_neg (S "interface[") _
    (isPrefixOf_append_false (S "interface[") (S "lldp/") (by decide) r)
  have hm := plainMatch_pos (S "lldp/") r
  simp only [expandPath, expandMatch, habs, hn1, hn2, hn3, hn4, hm,
    Bool.false_eq_true, if_false]
  rw [show lldpTemplate = S "/lldp/" ++ instancePlaceholder from by decide]
  exact instantiate1_eq _ _ (by decide) h3

/-- Expansion of a `system/` short form. -/
theorem expandPath_systemShort (r : List Char)
    (h3 : containsSub r restPlaceholder = false) :
    expandPath (systemShort r) = S "/system/" ++ r := by
  rw [show systemShort r = S "system/" ++ r from rfl]
  have habs := isPrefixOf_append_false (S "/") (S "system/") (by decide) r
  have hn1 := keyedMatch_neg (S "bgp[") _
    (isPrefixOf_append_false (S "bgp[") (S "system/") (by decide) r)
  have hn2 := keyedMatch_neg (S "ospf[") _
    (isPrefixOf_append_false (S "ospf[") (S "system/") (by decide) r)
  have hn3 := keyedMatch_neg (S "isis[") _
    (isPrefixOf_append_false (S "isis[") (S "system/") (by decide) r)
  have hn4 := keyedMatch_neg (S "interface[") _
    (isPrefixOf_append_false (S "interface[") (S "system/") (by decide) r)
  have hn5 := plainMatch_neg (S "lldp/") _
    (isPrefixOf_append_false (S "lldp/") (S "system/") (by decide) r)
  have hm := plainMatch_pos (S "system/") r
  simp only [expandPath, expandMatch, habs, hn1, hn2, hn3, hn4, hn5, hm,
    Bool.false_eq_true, if_false]
  rw [show systemTemplate = S "/system/" ++ instancePlaceholder from by decide]
  exact instantiate1_eq _ _ (by decide) h3

/-! ## Per-entry compaction lemmas (C1) -/

/-- Compaction of a BGP-canonical path. -/
theorem compactPath_bgpCanon (inst rest : List Char) (h1 : inst ≠ [])
    (h2 : ']' ∉ inst) :
    compactPath
        (S "/network-instances/network-instance[name=" ++
          (inst ++ (']' ::
            (S "/protocols/protocol[identifier=BGP][name=BGP]/bgp/" ++
              rest)))) = bgpShort inst rest := by
  have hm := compactMatch_pos (S "/network-instances/network-instance[name=")
    (S "/protocols/protocol[identifier=BGP][name=BGP]/bgp/") inst rest h1 h2
  simp only [compactPath, hm]
  rfl

/-- Compaction of an OSPF-canonical path. -/
theorem compactPath_ospfCanon (inst rest : List Char) (h1 : inst ≠ [])
    (h2 : ']' ∉ inst) :
    compactPath
        (S "/network-instances/network-instance[name=" ++
          (inst ++ (']' ::
            (S "/protocols/protocol[identifier=OSPF][name=OSPF]/ospf/" ++
              rest)))) = ospfShort inst rest := by
  have hn1 := compactMatch_neg_tail
    (S "/network-instances/network-instance[name=")
    (S "/protocols/protocol[identifier=BGP][name=BGP]/bgp/") inst
    (S "/protocols/protocol[identifier=OSPF][name=OSPF]/ospf/" ++ rest) h2
    (isPrefixOf_append_false _ _ (by decide) rest)
  have hm := compactMatch_pos (S "/network-instances/network-instance[name=")
    (S "/protocols/protocol[identifier=OSPF][name=OSPF]/ospf/") inst rest
    h1 h2
  simp only [compactPath, hn1, hm]
  rfl

/-- Compaction of an ISIS-canonical path. -/
theorem compactPath_isisCanon (inst rest : List Char) (h1 : inst ≠ [])
    (h2 : ']' ∉ inst) :
    compactPath
        (S "/network-instances/network-instance[name=" ++
          (inst ++ (']' ::
            (S "/protocols/protocol[identifier=ISIS][name=ISIS]/isis/" ++
              rest)))) = isisShort inst rest := by
  have hn1 := compactMatch_neg_tail
    (S "/network-instances/network-instance[name=")
    (S "/protocols/protocol[identifier=BGP][name=BGP]/bgp/") inst
    (S "/protocols/protocol[identifier=ISIS][name=ISIS]/isis/" ++ rest) h2
    (isPrefixOf_append_false _ _ (by decide) rest)
  have hn2 := compactMatch_neg_tail
    (S "/network-instances/network-instance[name=")
    (S "/protocols/protocol[identifier=OSPF][name=OSPF]/ospf/") inst
    (S "/protocols/protocol[identifier=ISIS][name=ISIS]/isis/" ++ rest) h2
    (isPrefixOf_append_false _ _ (by decide) rest)
  have hm := compactMatch_pos (S "/network-instances/network-instance[name=")
    (S "/protocols/protocol[identifier=ISIS][name=ISIS]/isis/") inst rest
    h1 h2
  simp only [compactPath, hn1, hn2, hm]
  rfl

/-- Compaction of an interface-canonical path. -/
theorem compactPath_ifaceCanon (inst rest : List Char) (h1 : inst ≠ [])
    (h2 : ']' ∉ inst) :
    compactPath
        (S "/interfaces/interface[name=" ++
          (inst ++ (']' :: (S "/" ++ rest)))) = ifaceShort inst rest := by
  have hnp : ∀ ct : List Char,
      compactMatch (S "/network-instances/network-instance[name=") ct
        (S "/interfaces/interface[name=" ++
          (inst ++ (']' :: (S "/" ++ rest)))) = none := fun ct =>
    compactMatch_neg_pre _ ct _
      (isPrefixOf_append_false _ _ (by decide) _)
  have hm := compactMatch_pos (S "/interfaces/interface[name=") (S "/")
    inst rest h1 h2
  simp only [compactPath, hnp, hm]
  rfl

/-- Compaction of an LLDP-canonical path. -/
theorem compactPath_lldpCanon (r : List Char) :
    compactPath (S "/lldp/" ++ r) = lldpShort r := by
  have hnp : ∀ ct : List Char,
      compactMatch (S "/network-instances/network-instance[name=") ct
        (S "/lldp/" ++ r) = none := fun ct =>
    compactMatch_neg_pre _ ct _ (isPrefixOf_append_false _ _ (by decide) _)
  have hni := compactMatch_neg_pre (S "/interfaces/interface[name=") (S "/")
    (S "/lldp/" ++ r) (isPrefixOf_append_false _ _ (by decide) _)
  have hl := isPrefixOf_append_self (S "/lldp/") r
  simp only [compactPath, hnp, hni, hl, if_true]
  rw [show (6 : Nat) = (S "/lldp/").length from rfl, List.drop_left]
  rfl

/-- Compaction of a system-canonical path. -/
theorem compactPath_systemCanon (r : List Char) :
    compactPath (S "/system/" ++ r) = systemShort r := by
  have hnp : ∀ ct : List Char,
      compactMatch (S "/network-instances/network-instance[name=") ct
        (S "/system/" ++ r) = none := fun ct =>
    compactMatch_neg_pre _ ct _ (isPrefixOf_append_false _ _ (by decide) _)
  have hni := compactMatch_neg_pre (S "/interfaces/interface[name=") (S "/")
    (S "/system/" ++ r) (isPrefixOf_append_false _ _ (by decide) _)
  have hlf := isPrefixOf_append_false (S "/lldp/") (S "/system/")
    (by decide) r
  have hs := isPrefixOf_append_self (S "/system/") r
  simp only [compactPath, hnp, hni, hlf, hs, Bool.false_eq_true, if_false,
    if_true]
  rw [show (8 : Nat) = (S "/system/").length from rfl, List.drop_left]
  rfl

/-- Round trip on a network-instance-canonical path: the compaction may
legitimately be intercepted by the BGP/OSPF/ISIS rules when the remainder
happens to start with their protocol suffix, and re-expansion restores
the same canonical path in every case. -/
theorem roundtrip_niCanon (inst rest : List Char) (h1 : inst ≠ [])
    (h2 : ']' ∉ inst) (h3 : containsSub inst restPlaceholder = false) :
    expandPath (compactPath
        (S "/network-instances/network-instance[name=" ++
          (inst ++ (']' :: (S "/" ++ rest))))) =
      S "/network-instances/network-instance[name=" ++
        (inst ++ (']' :: (S "/" ++ rest))) := by
  by_cases hb :
      (S "protocols/protocol[identifier=BGP][name=BGP]/bgp/").isPrefixOf
        rest = true
  · obtain ⟨r2, rfl⟩ : ∃ r2, rest =
        S "protocols/protocol[identifier=BGP][name=BGP]/bgp/" ++ r2 := by
      obtain ⟨t, ht⟩ := List.isPrefixOf_iff_prefix.mp hb
      exact ⟨t, ht.symm⟩
    rw [show ((S "/" : List Char) ++
        (S "protocols/protocol[identifier=BGP][name=BGP]/bgp/" ++ r2)) =
        S "/protocols/protocol[identifier=BGP][name=BGP]/bgp/" ++ r2 from by
      rw [← List.append_assoc]
      rfl]
    rw [compactPath_bgpCanon inst r2 h1 h2,
      expandPath_bgpShort inst r2 h1 h2 h3]
  · by_cases ho :
        (S "protocols/protocol[identifier=OSPF][name=OSPF]/ospf/").isPrefixOf
          rest = true
    · obtain ⟨r2, rfl⟩ : ∃ r2, rest =
          S "protocols/protocol[identifier=OSPF][name=OSPF]/ospf/" ++ r2 := by
        obtain ⟨t, ht⟩ := List.isPrefixOf_iff_prefix.mp ho
        exact ⟨t, ht.symm⟩
      rw [show ((S "/" : List Char) ++
          (S "protocols/protocol[identifier=OSPF][name=OSPF]/ospf/" ++ r2)) =
          S "/protocols/protocol[identifier=OSPF][name=OSPF]/ospf/" ++ r2
        from by
        rw [← List.append_assoc]
        rfl]
      rw [compactPath_ospfCanon inst r2 h1 h2,
        expandPath_ospfShort inst r2 h1 h2 h3]
    · by_cases hi :
          (S "protocols/protocol[identifier=ISIS][name=ISIS]/isis/"
            ).isPrefixOf rest = true
      · obtain ⟨r2, rfl⟩ : ∃ r2, rest =
            S "protocols/protocol[identifier=ISIS][name=ISIS]/isis/" ++
              r2 := by
          obtain ⟨t, ht⟩ := List.isPrefixOf_iff_prefix.mp hi
          exact ⟨t, ht.symm⟩
        rw [show ((S "/" : List Char) ++
            (S "protocols/protocol[identifier=ISIS][name=ISIS]/isis/" ++
              r2)) =
            S "/protocols/protocol[identifier=ISIS][name=ISIS]/isis/" ++ r2
          from by
          rw [← List.append_assoc]
          rfl]
        rw [compactPath_isisCanon inst r2 h1 h2,
          expandPath_isisShort inst r2 h1 h2 h3]
      · have hb2 :
            (S "protocols/protocol[identifier=BGP][name=BGP]/bgp/"
              ).isPrefixOf rest = false := by
          revert hb
          cases (S "protocols/protocol[identifier=BGP][name=BGP]/bgp/"
            ).isPrefixOf rest <;> simp
        have ho2 :
            (S "protocols/protocol[identifier=OSPF][name=OSPF]/ospf/"
              ).isPrefixOf rest = false := by
          revert ho
          cases (S "protocols/protocol[identifier=OSPF][name=OSPF]/ospf/"
            ).isPrefixOf rest <;> simp
        have hi2 :
            (S "protocols/protocol[identifier=ISIS][name=ISIS]/isis/"
              ).isPrefixOf rest = false := by
          revert hi
          cases (S "protocols/protocol[identifier=ISIS][name=ISIS]/isis/"
            ).isPrefixOf rest <;> simp
        have ht1 :
            (S "/protocols/protocol[identifier=BGP][name=BGP]/bgp/"
              ).isPrefixOf ((S "/" : List Char) ++ rest) = false := by
          rw [show (S "/protocols/protocol[identifier=BGP][name=BGP]/bgp/" :
              List Char) =
            '/' :: S "protocols/protocol[identifier=BGP][name=BGP]/bgp/"
            from rfl]
          rw [show ((S "/" : List Char) ++ rest) = '/' :: rest from rfl]
          simp [List.isPrefixOf, hb2]
        have ht2 :
            (S "/protocols/protocol[identifier=OSPF][name=OSPF]/ospf/"
              ).isPrefixOf ((S "/" : List Char) ++ rest) = false := by
          rw [show (S "/protocols/protocol[identifier=OSPF][name=OSPF]/ospf/" :
              List Char) =
            '/' :: S "protocols/protocol[identifier=OSPF][name=OSPF]/ospf/"
            from rfl]
          rw [show ((S "/" : List Char) ++ rest) = '/' :: rest from rfl]
          simp [List.isPrefixOf, ho2]
        have ht3 :
            (S "/protocols/protocol[identifier=ISIS][name=ISIS]/isis/"
              ).isPrefixOf ((S "/" : List Char) ++ rest) = false := by
          rw [show (S "/protocols/protocol[identifier=ISIS][name=ISIS]/isis/" :
              List Char) =
            '/' :: S "protocols/protocol[identifier=ISIS][name=ISIS]/isis/"
            from rfl]
          rw [show ((S "/" : List Char) ++ rest) = '/' :: rest from rfl]
          simp [List.isPrefixOf, hi2]
        have hn1 := compactMatch_neg_tail
          (S "/network-instances/network-instance[name=")
          (S "/protocols/protocol[identifier=BGP][name=BGP]/bgp/") inst
          (S "/" ++ rest) h2 ht1
        have hn2 := compactMatch_neg_tail
          (S "/network-instances/network-instance[name=")
          (S "/protocols/protocol[identifier=OSPF][name=OSPF]/ospf/") inst
          (S "/" ++ rest) h2 ht2
        have hn3 := compactMatch_neg_tail
          (S "/network-instances/network-instance[name=")
          (S "/protocols/protocol[identifier=ISIS][name=ISIS]/isis/") inst
          (S "/" ++ rest) h2 ht3
        have hif := compactMatch_neg_pre (S "/interfaces/interface[name=")
          (S "/")
          (S "/network-instances/network-instance[name=" ++
            (inst ++ (']' :: (S "/" ++ rest))))
          (isPrefixOf_append_false _ _ (by decide) _)
        have hlf := isPrefixOf_append_false (S "/lldp/")
          (S "/network-instances/network-instance[name=") (by decide)
          (inst ++ (']' :: (S "/" ++ rest)))
        have hsf := isPrefixOf_append_false (S "/system/")
          (S "/network-instances/network-instance[name=") (by decide)
          (inst ++ (']' :: (S "/" ++ rest)))
        have hm := compactMatch_pos
          (S "/network-instances/network-instance[name=") (S "/") inst rest
          h1 h2
        simp only [compactPath, hn1, hn2, hn3, hif, hlf, hsf,
          Bool.false_eq_true, if_false, hm]
        exact expandPath_niShort inst rest h1 h2 h3

/-! ## C1 — the expand/compact round trip -/

/-- C1 counterexample: the short form `lldp/{rest}{rest}` matches the
`lldp/` table entry, yet the canonical path it expands to does not
round-trip: the template substitution (`strings.Replace` of the literal
`{rest}`, once) deletes a `{rest}` occurrence from the capture on each
expansion, so `Expand(Compact(p))` = `/lldp/` ≠ `/lldp/{rest}` = `p`. -/
theorem expand_compact_roundtrip_fails :
    expandMatch (S "lldp/\x7brest\x7d\x7brest\x7d") ≠ none ∧
    expandPath (S "lldp/\x7brest\x7d\x7brest\x7d") =
      S "/lldp/\x7brest\x7d" ∧
    expandPath (compactPath
        (expandPath (S "lldp/\x7brest\x7d\x7brest\x7d"))) ≠
      expandPath (S "lldp/\x7brest\x7d\x7brest\x7d") := by
  decide

/-- C1 (amended): `Expand(Compact(p)) = p` for every canonical path `p`
produced by `ExpandPath` from a short form matching a supported
prefix-table entry — `bgp[i]/r`, `ospf[i]/r`, `isis[i]/r`,
`interface[i]/r`, `network-instance[i]/r` (instance `i` nonempty and
`]`-free, as the entry regexes require) and `lldp/r`, `system/r` —
provided the captured instance (keyed entries) resp. the captured
remainder (plain entries) contains no occurrence of the literal
placeholder `\x7brest\x7d`, the case the counterexample shows is
corrupted by the template substitution. -/
theorem expand_compact_roundtrip :
    (∀ inst rest : List Char, inst ≠ [] → ']' ∉ inst →
      containsSub inst restPlaceholder = false →
      expandPath (compactPath (expandPath (bgpShort inst rest))) =
        expandPath (bgpShort inst rest)) ∧
    (∀ inst rest : List Char, inst ≠ [] → ']' ∉ inst →
      containsSub inst restPlaceholder = false →
      expandPath (compactPath (expandPath (ospfShort inst rest))) =
        expandPath (ospfShort inst rest)) ∧
    (∀ inst rest : List Char, inst ≠ [] → ']' ∉ inst →
      containsSub inst restPlaceholder = false →
      expandPath (compactPath (expandPath (isisShort inst rest))) =
        expandPath (isisShort inst rest)) ∧
    (∀ inst rest : List Char, inst ≠ [] → ']' ∉ inst →
      containsSub inst restPlaceholder = false →
      expandPath (compactPath (expandPath (ifaceShort inst rest))) =
        expandPath (ifaceShort inst rest)) ∧
    (∀ inst rest : List Char, inst ≠ [] → ']' ∉ inst →
      containsSub inst restPlaceholder = false →
      expandPath (compactPath (expandPath (niShort inst rest))) =
        expandPath (niShort inst rest)) ∧
    (∀ r : List Char, containsSub r restPlaceholder = false →
      expandPath (compactPath (expandPath (lldpShort r))) =
        expandPath (lldpShort r)) ∧
    (∀ r : List Char, containsSub r restPlaceholder = false →
      expandPath (compactPath (expandPath (systemShort r))) =
        expandPath (systemShort r)) := by
  refine ⟨?_, ?_, ?_, ?_, ?_, ?_, ?_⟩
  · intro inst rest h1 h2 h3
    rw [expandPath_bgpShort inst rest h1 h2 h3,
      compactPath_bgpCanon inst rest h1 h2]
    exact expandPath_bgpShort inst rest h1 h2 h3
  · intro inst rest h1 h2 h3
    rw [expandPath_ospfShort inst rest h1 h2 h3,
      compactPath_ospfCanon inst rest h1 h2]
    exact expandPath_ospfShort inst rest h1 h2 h3
  · intro inst rest h1 h2 h3
    rw [expandPath_isisShort inst rest h1 h2 h3,
      compactPath_isisCanon inst rest h1 h2]
    exact expandPath_isisShort inst rest h1 h2 h3
  · intro inst rest h1 h2 h3
    rw [expandPath_ifaceShort inst rest h1 h2 h3,
      compactPath_ifaceCanon inst rest h1 h2]
    exact expandPath_ifaceShort inst rest h1 h2 h3
  · intro inst rest h1 h2 h3
    rw [expandPath_niShort inst rest h1 h2 h3]
    exact roundtrip_niCanon inst rest h1 h2 h3
  · intro r h3
    rw [expandPath_lldpShort r h3, compactPath_lldpCanon r]
    exact expandPath_lldpShort r h3
  · intro r h3
    rw [expandPath_systemShort r h3, compactPath_systemCanon r]
    exact expandPath_systemShort r h3

/-- Witness for C1's amended theorem at a realistic BGP short path. -/
theorem expand_compact_roundtrip_witness :
    expandPath (compactPath (expandPath
        (bgpShort (S "default") (S "neighbors")))) =
      expandPath (bgpShort (S "default") (S "neighbors")) :=
  expand_compact_roundtrip.1 (S "default") (S "neighbors")
    (by decide) (by decide) (by decide)

/-! ## C8 — Run fails exactly on connection failures -/

/-- The error channel is empty exactly when every target's connection
attempt succeeded. -/
theorem findSome_runErrOf_eq_none (re : RegexEngine) (ts : List TargetSpec) :
    ((ts.map fun t => (t.target.GetHost, runTarget re t)).findSome?
        runErrOf = none) ↔
      ∀ t ∈ ts, isOkE t.connect = true := by
  induction ts with
  | nil => simp
  | cons t ts ih =>
    simp only [List.map_cons, List.findSome?_cons]
    rcases hc : t.connect with e | client
    · simp only [runTarget, hc, runErrOf]
      constructor
      · intro h; cases h
      · intro h
        have := h t (List.mem_cons_self t ts)
        simp [isOkE, hc] at this
    · have hnone : runErrOf (t.target.GetHost, runTarget re t) = none := by
        simp [runTarget, hc, runErrOf]
      rw [hnone]
      constructor
      · intro h u hu
        rcases List.mem_cons.mp hu with rfl | hu'
        · simp [isOkE, hc]
        · exact ih.mp h u hu'
      · intro h
        exact ih.mpr fun u hu => h u (List.mem_cons_of_mem t hu)

/-- Unfolding of the Result collection over one target. -/
theorem runCollect_cons (h : String) (o : Except String (List Result))
    (l : List (String × Except String (List Result))) :
    runCollect ((h, o) :: l) =
      match o with
      | .ok rs => rs ++ runCollect l
      | .error _ => runCollect l := rfl

/-- When every connection succeeded, the collected Results number exactly
one per assertion. -/
theorem runCollect_length (re : RegexEngine) :
    ∀ ts : List TargetSpec, (∀ t ∈ ts, isOkE t.connect = true) →
      (runCollect (ts.map fun t =>
        (t.target.GetHost, runTarget re t))).length =
        (ts.map fun t => t.target.Assertions.length).sum := by
  intro ts
  induction ts with
  | nil => intro _; rfl
  | cons t ts ih =>
    intro h
    rcases hc : t.connect with e | client
    · have := h t (List.mem_cons_self t ts)
      simp [isOkE, hc] at this
    · have hrt : runTarget re t = .ok (t.target.Assertions.map fun a =>
          { runAssertion re client a with Target := t.target.GetHost }) := by
        simp [runTarget, hc]
      rw [List.map_cons, runCollect_cons]
      simp only [hrt, List.map_cons, List.sum_cons]
      rw [List.length_append, List.length_map,
        ih fun u hu => h u (List.mem_cons_of_mem t hu)]

/-- `tally` stores the scanned Result set unchanged. -/
theorem tally_results (rs : List Result) : (tally rs).Results = rs :=
  foldl_tallyStep_results rs _

/-- C8 counterexample: a run whose single fetch observes context
cancellation still returns a `RunResult` (with the cancellation captured
as an error Result) — `Run` does not fail on cancellation, refuting the
"or the context is cancelled" half of the claimed equivalence. -/
theorem run_ok_despite_cancelled_fetch :
    run trivialEngine cancelExample =
      .ok { TotalAssertions := 1, Passed := 0, Failed := 0, Errors := 1,
            Results := [{ Target := "h",
                          Assertion := { Path := "/p", Equals := some "UP" },
                          Passed := false, ActualValue := "",
                          Error := some "get: context canceled" }] } := by
  decide

/-- C8 (amended): `Run` fails — returns an error and no `RunResult` — if
and only if connecting to at least one target fails; when every
connection succeeds the run always returns a `RunResult` with exactly one
Result per assertion, so per-assertion fetch failures (including fetches
that observe context cancellation) are captured as error Results and
never cause `Run` itself to return an error. -/
theorem run_fails_iff_connect_fails :
    (∀ (re : RegexEngine) (ts : List TargetSpec),
      isOkE (run re ts) = ts.all fun t => isOkE t.connect) ∧
    (∀ (re : RegexEngine) (ts : List TargetSpec) (rr : RunResult),
      run re ts = .ok rr →
      rr.Results.length = (ts.map fun t => t.target.Assertions.length).sum) := by
  constructor
  · intro re ts
    rcases hf : (ts.map fun t => (t.target.GetHost, runTarget re t)).findSome?
        runErrOf with - | e
    · have hall := (findSome_runErrOf_eq_none re ts).mp hf
      have h2 : ts.all (fun t => isOkE t.connect) = true :=
        List.all_eq_true.mpr hall
      rw [h2]
      simp [run, hf, isOkE]
    · have hne : ¬∀ t ∈ ts, isOkE t.connect = true := by
        intro hall
        rw [(findSome_runErrOf_eq_none re ts).mpr hall] at hf
        cases hf
      have h2 : ts.all (fun t => isOkE t.connect) = false := by
        rcases Bool.eq_false_or_eq_true (ts.all fun t => isOkE t.connect)
          with h | h
        · exact absurd (List.all_eq_true.mp h) hne
        · exact h
      rw [h2]
      simp [run, hf, isOkE]
  · intro re ts rr h
    rcases hf : (ts.map fun t => (t.target.GetHost, runTarget re t)).findSome?
        runErrOf with - | e
    · simp only [run, hf] at h
      injection h with h2
      subst h2
      rw [tally_results]
      exact runCollect_length re ts ((findSome_runErrOf_eq_none re ts).mp hf)
    · simp only [run, hf] at h
      exact Except.noConfusion h

/-- Witness for C8's amended theorem: applying the success clause to the
cancelled-fetch run yields one Result for its one assertion. -/
theorem run_fails_iff_connect_fails_witness :
    ({ TotalAssertions := 1, Passed := 0, Failed := 0, Errors := 1,
       Results := [{ Target := "h",
                     Assertion := { Path := "/p", Equals := some "UP" },
                     Passed := false, ActualValue := "",
                     Error := some "get: context canceled" }] } :
        RunResult).Results.length =
      (cancelExample.map fun t => t.target.Assertions.length).sum :=
  run_fails_iff_connect_fails.2 trivialEngine cancelExample _ (by decide)

/-! ## C7 — RunResult counters partition the Result set -/

/-- C7: the tally partitions the Results: errored counts exactly the
Results with an error, passed exactly the error-free passed ones, failed
exactly the error-free failed ones, total is the number of Results, and
total = passed + failed + errored. -/
theorem tally_counters_partition (rs : List Result) :
    (tally rs).TotalAssertions = rs.length ∧
    (tally rs).Errors = rs.countP (fun r => r.Error.isSome) ∧
    (tally rs).Passed = rs.countP (fun r => r.Error.isNone && r.Passed) ∧
    (tally rs).Failed = rs.countP (fun r => r.Error.isNone && !r.Passed) ∧
    (tally rs).TotalAssertions =
      (tally rs).Passed + (tally rs).Failed + (tally rs).Errors := by
  obtain ⟨h1, h2, h3, h4⟩ := foldl_tallyStep rs
    { TotalAssertions := 0, Passed := 0, Failed := 0, Errors := 0,
      Results := rs }
  have hsum : ∀ l : List Result,
      l.countP (fun r => r.Error.isNone && r.Passed) +
        l.countP (fun r => r.Error.isNone && !r.Passed) +
        l.countP (fun r => r.Error.isSome) = l.length := by
    intro l
    induction l with
    | nil => rfl
    | cons r t ih =>
      simp only [List.countP_cons, List.length_cons]
      rcases herr : r.Error with - | v <;> by_cases hp : r.Passed <;>
        simp [herr, hp] <;> omega
  simp only [Nat.zero_add] at h1 h2 h3 h4
  refine ⟨?_, ?_, ?_, ?_, ?_⟩
  · rw [tally, h1]
  · rw [tally, h2]
  · rw [tally, h3]
  · rw [tally, h4]
  · rw [tally, h1, h2, h3, h4]
    have := hsum rs
    omega

end Netsert
